import Mathlib

/-!
Verification of the buildflow-backend rules-evaluation engine.

Shallow embedding of `app/services/rules_engine.py`,
`app/services/apply_rules.py` and the sibling evaluation path in
`app/api/v1/rules.py` (the `apply-rules` endpoint), together with proofs
about the embedded definitions.

Modelling conventions:
* Python numeric metric values are rationals (`ℚ`); the engine only reads
  them from day records and compares/aggregates them.
* A Python dict field that may be missing is `Option (Option _)`:
  the outer layer records key presence (`"k" in d`), the inner layer a
  present-but-`None` value.  `forecast_horizon_days` is a single
  `Option Int` where `Option.none` means "key absent or value not an `int`"
  (the `isinstance(..., int)` test in `eval_rule_per_day` treats both
  alike; a present non-int horizon in the rolling path is not modelled).
* Calendar dates are day ordinals (`Int`); `dateStr` abstracts Python's
  `str(date)` rendering, and `numStr` abstracts `str()` of numbers.
  No theorem depends on the concrete rendering of either.
* Time is in minutes (`Int`); `DB.now` models Postgres `now()`, which is
  constant for the whole transaction of one apply-rules run, so all
  issues inserted by one run carry `created_at = now`.
-/

namespace BuildFlow

/-- Python values as they occur in rule thresholds and comparator
operands: `None`, a number, or a list (used by `in` / `between`).
String thresholds (whose `float()` coercion can succeed in Python) do
not occur in this code base: rule values arrive as JSON numbers/lists. -/
inductive Val where
  | none : Val
  | num (q : ℚ) : Val
  | list (l : List Val) : Val

mutual

/-- Python `==` on values, used by the `in` membership test. -/
def Val.beq : Val → Val → Bool
  | Val.none, Val.none => true
  | Val.num a, Val.num b => decide (a = b)
  | Val.list as, Val.list bs => Val.beqs as bs
  | _, _ => false

def Val.beqs : List Val → List Val → Bool
  | [], [] => true
  | a :: as, b :: bs => Val.beq a b && Val.beqs as bs
  | _, _ => false

end

/-- Python `x is None`. -/
def Val.isNone : Val → Bool
  | Val.none => true
  | _ => false

/-- `float(x)` coercion: `Option.none` models a raised exception. -/
def toFloat : Val → Option ℚ
  | Val.num q => some q
  | _ => Option.none

/-- Lift the result of `get_metric` (a number or Python `None`) to `Val`. -/
def valOf : Option ℚ → Val
  | Option.none => Val.none
  | some q => Val.num q

/-! ### Python `str.replace`, modelled on character lists

`render_tmpl` uses `out.replace("{"+k+"}", fmt(v))`.  We model
`str.replace` with an explicitly fuelled left-to-right scan replacing
every non-overlapping occurrence; fuel `s.length` suffices because each
step consumes at least one input character. -/

def replaceFuel (p r : List Char) : Nat → List Char → List Char
  | 0, s => s
  | _+1, [] => []
  | fuel+1, c :: cs =>
    if p ≠ [] ∧ (c :: cs).take p.length = p then
      r ++ replaceFuel p r fuel ((c :: cs).drop p.length)
    else
      c :: replaceFuel p r fuel cs

/-- Python `s.replace(pat, rep)`. -/
def pyReplace (s pat rep : String) : String :=
  String.mk (replaceFuel pat.data rep.data s.data.length s.data)

/-- `_fmt` in `rules_engine.py`: `"" if val is None else str(val)`.
Context values are carried already stringified (see `dayCtx`). -/
def fmt : Option String → String
  | Option.none => ""
  | some s => s

/-- `render_tmpl` in `rules_engine.py`: fold over the context dict (in
insertion order), replacing every occurrence of `\x7b` key `\x7d`. -/
def render_tmpl (tmpl : String) (ctx : List (String × Option String)) : String :=
  ctx.foldl (fun out kv => pyReplace out ("\x7b" ++ kv.1 ++ "\x7d") (fmt kv.2)) tmpl

/-! ### Day records and metric access -/

/-- One day record as the engine sees it (a Python dict).
`target_date` is always present; the five metric fields distinguish
"key absent" (outer `Option.none`) from "key present with value `None`"
(inner `Option.none`), because `apply_rules_orchestrator` tests key
membership (`"weather_code" not in d`). -/
structure Day where
  target_date : Int
  weather_code : Option (Option ℚ) := Option.none
  temp_min_c : Option (Option ℚ) := Option.none
  temp_max_c : Option (Option ℚ) := Option.none
  precipitation_mm : Option (Option ℚ) := Option.none
  wind_kmh : Option (Option ℚ) := Option.none
  forecast_horizon_days : Option Int := Option.none
deriving DecidableEq, Repr

/-- `d.get(name)`: key absent and present-`None` both yield `None`. -/
def dget (f : Option (Option ℚ)) : Option ℚ := f.bind id

/-- `get_metric` in `rules_engine.py`: names outside `_METRICS` give
`None`; otherwise `day.get(name)`. -/
def get_metric (day : Day) (name : String) : Option ℚ :=
  if name = "weather_code" then dget day.weather_code
  else if name = "temp_min_c" then dget day.temp_min_c
  else if name = "temp_max_c" then dget day.temp_max_c
  else if name = "precipitation_mm" then dget day.precipitation_mm
  else if name = "wind_kmh" then dget day.wind_kmh
  else Option.none

/-! ### Comparator -/

/-- `cmp_value` in `rules_engine.py`.  Every `try/except` of the source
appears as an `Option` match: a failing `float()` or a malformed
`between` pair yields `false` instead of an exception.  The function is
total, witnessing comparator totality. -/
def cmp_value (op : String) (actual value : Val) : Bool :=
  if actual.isNone then false
  else if op = ">" ∨ op = ">=" ∨ op = "<" ∨ op = "<=" ∨ op = "==" then
    match toFloat actual, toFloat value with
    | some a, some b =>
      if op = ">" then a > b
      else if op = ">=" then a ≥ b
      else if op = "<" then a < b
      else if op = "<=" then a ≤ b
      else a = b
    | _, _ => false
  else if op = "in" then
    match value with
    | Val.list l => l.any (fun x => Val.beq actual x)
    | _ => false
  else if op = "between" then
    match value with
    | Val.list [lo, hi] =>
      match toFloat lo, toFloat hi, toFloat actual with
      | some l, some h, some a => decide (l ≤ a ∧ a ≤ h)
      | _, _, _ => false
    | _ => false
  else false

/-! ### Aggregator -/

/-- `agg_block` in `rules_engine.py`: drop `None`s, return `None` on an
empty remainder, else aggregate.  `max`/`min` use `List.max?`/`List.min?`
(equal to Python `max`/`min` on the non-empty filtered list). -/
def agg_block (vals : List (Option ℚ)) (agg : String) : Option ℚ :=
  let arr := vals.filterMap id
  if arr.length = 0 then Option.none
  else if agg = "sum" then some arr.sum
  else if agg = "avg" then some (arr.sum / (arr.length : ℚ))
  else if agg = "max" then arr.max?
  else if agg = "min" then arr.min?
  else if agg = "count" then some ((arr.length : ℚ))
  else Option.none

/-! ### Rules -/

/-- The optional `suggest` block of a rule dict. -/
structure Suggest where
  title : Option String := Option.none
  description_tmpl : Option String := Option.none
deriving DecidableEq, Repr

instance : Inhabited Suggest := ⟨{}⟩

/-- A rule dict as consumed by `rules_engine.py`.  Optional fields model
`rule.get(...)`; `metric` and `op` are required lookups (`rule["..."]`).
`window_days` carries `int(rule["window_days"])`, only read for rolling
rules (`aggregate` likewise). -/
structure Rule where
  id : Option String := Option.none
  name : Option String := Option.none
  severity : Option String := Option.none
  scope : Option String := Option.none
  metric : String
  op : String
  value : Val := Val.none
  when_horizon_max : Option Int := Option.none
  window_days : Nat := 0
  aggregate : String := ""
  suggest : Option Suggest := Option.none
  dedupe_key_tmpl : Option String := Option.none
  auto_actions_create_issue : Option Bool := Option.none

/-! ### Single-day evaluation -/

/-- Evidence attached to a match. -/
structure Evidence where
  metric : String
  op : String
  value : Val
  actual : Option ℚ
  aggregate : Option String

/-- A match record. -/
structure Match where
  rule_id : Option String
  rule_name : Option String
  severity : String
  evidence : Evidence

/-- The horizon guard of `eval_rule_per_day`: the rule is filtered out
only when `when_horizon_max` is set AND the day's
`forecast_horizon_days` is present as an `int` AND exceeds the max. -/
def horizon_ok_per_day (rule : Rule) (day : Day) : Bool :=
  match rule.when_horizon_max with
  | Option.none => true
  | some wh =>
    match day.forecast_horizon_days with
    | some h => decide (¬ h > wh)
    | Option.none => true

/-- `eval_rule_per_day` in `rules_engine.py` (the source's early
`return None`s are the `else` branches here). -/
def eval_rule_per_day (rule : Rule) (day : Day) : Option Match :=
  if horizon_ok_per_day rule day then
    let actual := get_metric day rule.metric
    if cmp_value rule.op (valOf actual) rule.value then
      some
        { rule_id := rule.id
          rule_name := rule.name
          severity := rule.severity.getD "medium"
          evidence :=
            { metric := rule.metric, op := rule.op, value := rule.value
              actual := actual, aggregate := Option.none } }
    else Option.none
  else Option.none

/-! ### Rolling-window evaluation -/

/-- `d.get("forecast_horizon_days", 999)` in the rolling horizon guard:
a day with no horizon key defaults to the sentinel `999`. -/
def rollingHorizon (d : Day) : Int :=
  match d.forecast_horizon_days with
  | some h => h
  | Option.none => 999

/-- The per-window horizon guard of `eval_rule_rolling`: with
`when_horizon_max` set, the window is skipped when ANY day of the block
has (defaulted) horizon above the max. -/
def window_horizon_ok (wh : Option Int) (block : List Day) : Bool :=
  match wh with
  | Option.none => true
  | some m => ! block.any (fun d => rollingHorizon d > m)

/-- The match record built by `eval_rule_rolling` for aggregate value
`aggv`; the aggregate descriptor renders `"\x7baggregate\x7d(\x7bwindow_days\x7d)"`. -/
def mkRollMatch (rule : Rule) (aggv : ℚ) : Match :=
  { rule_id := rule.id
    rule_name := rule.name
    severity := rule.severity.getD "medium"
    evidence :=
      { metric := rule.metric, op := rule.op, value := rule.value
        actual := some aggv
        aggregate := some (rule.aggregate ++ "(" ++ toString rule.window_days ++ ")") } }

/-- The `for i in range(len(days))` loop of `eval_rule_rolling`,
with the remaining iteration count as explicit (structural) fuel:
the call below starts it with fuel `days.length` at `i = 0`, so it runs
exactly the source's iterations.  The source `break`s as soon as a block
is shorter than `window_days`; because block length is antitone in `i`,
returning `[]` there is the `break`. -/
def eval_rule_rolling_from (rule : Rule) (days : List Day) :
    Nat → Nat → List (Nat × Match)
  | 0, _ => []
  | fuel + 1, i =>
    let W := rule.window_days
    let block := (days.drop i).take W
    if block.length < W then []
    else
      let rest := eval_rule_rolling_from rule days fuel (i + 1)
      if window_horizon_ok rule.when_horizon_max block then
        let vals := block.map (fun d => get_metric d rule.metric)
        match agg_block vals rule.aggregate with
        | Option.none => rest
        | some aggv =>
          if cmp_value rule.op (Val.num aggv) rule.value then
            (i + W - 1, mkRollMatch rule aggv) :: rest
          else rest
      else rest

/-- `eval_rule_rolling` in `rules_engine.py`. -/
def eval_rule_rolling (rule : Rule) (days : List Day) : List (Nat × Match) :=
  eval_rule_rolling_from rule days days.length 0

/-! ### `evaluate_rules` -/

/-- Abstraction of Python `str()` on a numeric value.  No theorem
depends on the concrete rendering. -/
def numStr (q : ℚ) : String := toString q

/-- Abstraction of Python `str()` on a date.  No theorem depends on the
concrete rendering. -/
def dateStr (d : Int) : String := toString d

/-- The dict items a present field contributes to `\x7b**day\x7d`. -/
def entryStr (k : String) (f : Option (Option ℚ)) : List (String × Option String) :=
  match f with
  | Option.none => []
  | some Option.none => [(k, Option.none)]
  | some (some q) => [(k, some (numStr q))]

/-- The render context `\x7b**day, "sector_id": sector_id\x7d`: the day's
present keys (in snapshot column order) followed by `sector_id`. -/
def dayCtx (day : Day) (sid : String) : List (String × Option String) :=
  [("target_date", some (dateStr day.target_date))]
    ++ entryStr "weather_code" day.weather_code
    ++ entryStr "temp_min_c" day.temp_min_c
    ++ entryStr "temp_max_c" day.temp_max_c
    ++ entryStr "precipitation_mm" day.precipitation_mm
    ++ entryStr "wind_kmh" day.wind_kmh
    ++ (match day.forecast_horizon_days with
        | Option.none => []
        | some h => [("forecast_horizon_days", some (toString h))])
    ++ [("sector_id", some sid)]

/-- A planned action dict built by `evaluate_rules`. -/
structure Action where
  type : String
  target_sector : String
  target_date : Int
  title : String
  description : String
  severity : String
  category : String
  dedupe_key : String
  rule_id : Option String
deriving DecidableEq, Repr

/-- The planned-action title in `evaluate_rules`:
`rule.get("suggest", \x7b\x7d).get("title", rule.get("name", "Issue gerada por regra"))`.
Note the title template is used verbatim; it is never passed through
`render_tmpl`. -/
def titleOf (rule : Rule) : String :=
  ((rule.suggest.getD {}).title).getD (rule.name.getD "Issue gerada por regra")

/-- One planned `create_issue` action as appended by `evaluate_rules`
(the per-day and rolling branches build the identical dict). -/
def mkAction (sid : String) (day : Day) (rule : Rule) : Action :=
  let ctx := dayCtx day sid
  let desc :=
    render_tmpl ((rule.suggest.getD {}).description_tmpl.getD "") ctx
  let dedupe_tmpl :=
    rule.dedupe_key_tmpl.getD "issue:{sector_id}:{target_date}:{name}"
  let dedupe_key :=
    render_tmpl dedupe_tmpl (ctx ++ [("name", some (rule.name.getD "rule"))])
  { type := "create_issue"
    target_sector := sid
    target_date := day.target_date
    title := titleOf rule
    description := desc
    severity := rule.severity.getD "medium"
    category := "weather"
    dedupe_key := dedupe_key
    rule_id := rule.id }

/-- `rule.get("auto_actions", \x7b\x7d).get("create_issue", True)`. -/
def autoCreate (rule : Rule) : Bool := rule.auto_actions_create_issue.getD true

/-- What one rule contributes to day `i`'s matches and to the planned
actions: the body of the `for rule in rules` loop of `evaluate_rules`.
The source appends to two accumulator lists; collecting each rule's
contribution and concatenating in rule order is the same accumulation. -/
def ruleContribution (sid : String) (days : List Day) (i : Nat) (day : Day)
    (rule : Rule) : List Match × List Action :=
  if rule.scope.getD "per_day" = "per_day" then
    match eval_rule_per_day rule day with
    | Option.none => ([], [])
    | some m => ([m], if autoCreate rule then [mkAction sid day rule] else [])
  else if rule.scope.getD "per_day" = "rolling" then
    let ms := (eval_rule_rolling rule days).filter (fun p => p.1 = i)
    (ms.map (·.2),
     if autoCreate rule then ms.map (fun _ => mkAction sid day rule) else [])
  else ([], [])

/-- The `values` sub-dict of a per-day report entry. -/
structure DayValues where
  weather_code : Option ℚ
  temp_min_c : Option ℚ
  temp_max_c : Option ℚ
  precipitation_mm : Option ℚ
  wind_kmh : Option ℚ
  forecast_horizon_days : Int

/-- One per-day report entry of `evaluate_rules`.  The field
`day_matches` embeds the dict key `"matches"` (a reserved word here). -/
structure DayOut where
  target_date : Int
  values : DayValues
  day_matches : List Match

/-- The day-`i` step of `evaluate_rules`: the matches and planned
actions of all rules against day `i`, plus the report entry. -/
def evalDay (sid : String) (days : List Day) (rules : List Rule) (i : Nat)
    (day : Day) : DayOut × List Action :=
  let contribs := rules.map (ruleContribution sid days i day)
  ( { target_date := day.target_date
      values :=
        { weather_code := dget day.weather_code
          temp_min_c := dget day.temp_min_c
          temp_max_c := dget day.temp_max_c
          precipitation_mm := dget day.precipitation_mm
          wind_kmh := dget day.wind_kmh
          forecast_horizon_days := day.forecast_horizon_days.getD 0 }
      day_matches := (contribs.map (·.1)).flatten }
  , (contribs.map (·.2)).flatten )

/-- The result dict of `evaluate_rules`; the source also carries literal
empty `committed`/`skipped` buckets, filled in by the orchestrator. -/
structure EngineRes where
  days : List DayOut
  planned : List Action

/-- `evaluate_rules` in `rules_engine.py`: iterate `enumerate(days)`,
dispatch every rule by scope, accumulate per-day reports (day order) and
planned actions (day-major, rule-minor order). -/
def evaluate_rules (sid : String) (days : List Day) (rules : List Rule) :
    EngineRes :=
  let per := days.enum.map (fun p => evalDay sid days rules p.1 p.2)
  { days := per.map (·.1), planned := (per.map (·.2)).flatten }

/-! ### Database state for `apply_rules.py`

Issues and `rules_run` audit rows, with `now` the (transaction-constant)
Postgres `now()` in minutes.  Inserts always return their row, as the
`INSERT ... RETURNING *` statements do when they do not raise. -/

/-- One row of the `issue` table (the columns the rules flow touches). -/
structure Issue where
  id : Nat
  sector_id : String
  issue_date : Int
  title : String
  description : Option String
  severity : String
  created_by : String
  created_at : Int
deriving DecidableEq, Repr

/-- One row of the `rules_run` audit table.  `days_analyzed` holds
whatever value the caller binds to `:days` (see the endpoint embedding:
a variable-shadowing slip binds the final loop date there, not the day
count). -/
structure AuditRec where
  mode : String
  window_start : Int
  window_end : Int
  days_analyzed : Int
  rules_checked : Nat
  issues_created : Nat
  status : String
deriving DecidableEq, Repr

/-- Database state threaded through a run. -/
structure DB where
  issues : List Issue
  audits : List AuditRec
  now : Int
deriving DecidableEq, Repr

/-- `_dedupe_hit` in `apply_rules.py` (and, identically,
`_recent_similar_issue_exists` in `rules.py`): an issue of the same
sector, same date, same title, created within the trailing
`dedupe_minutes`. -/
def dedupe_hit (db : DB) (sector_id : String) (issue_date : Int)
    (title : String) (dedupe_minutes : Int) : Bool :=
  db.issues.any (fun i =>
    i.sector_id = sector_id ∧ i.issue_date = issue_date ∧ i.title = title ∧
      db.now - dedupe_minutes ≤ i.created_at)

/-- `_create_issue` in `apply_rules.py`: insert and return the new row.
`created_at` defaults to the transaction `now()`; ids are assigned
consecutively. -/
def create_issue (db : DB) (sector_id : String) (issue_date : Int)
    (title : String) (description : Option String) (severity : String)
    (created_by : String) : DB × Issue :=
  let row : Issue :=
    { id := db.issues.length
      sector_id := sector_id
      issue_date := issue_date
      title := title
      description := description
      severity := severity
      created_by := created_by
      created_at := db.now }
  ({ db with issues := db.issues ++ [row] }, row)

/-- A `committed` bucket entry of the orchestrator. -/
structure CommitRec where
  type : String
  issue_id : Nat
  date : Int
  title : String
deriving DecidableEq, Repr

/-- A `skipped` bucket entry of the orchestrator. -/
structure SkipRec where
  type : String
  reason : String
  title : String
  date : Int
deriving DecidableEq, Repr

/-- State of the orchestrator's dedupe-and-commit loop. -/
structure CommitState where
  db : DB
  committed : List CommitRec
  skipped : List SkipRec
deriving DecidableEq, Repr

/-- One iteration of the `for act in planned` loop of
`apply_rules_orchestrator` (commit mode): non-`create_issue` actions are
passed over; a dedupe hit is recorded in `skipped` with reason
`"dedupe_hit"`; otherwise the issue is persisted and recorded in
`committed`. -/
def commitStep (sector_id : String) (dedupe_minutes : Int)
    (performed_by : String) (st : CommitState) (act : Action) : CommitState :=
  if act.type ≠ "create_issue" then st
  else if dedupe_hit st.db sector_id act.target_date act.title dedupe_minutes then
    { st with skipped := st.skipped ++
        [{ type := "create_issue", reason := "dedupe_hit"
           title := act.title, date := act.target_date }] }
  else
    let (db', row) := create_issue st.db sector_id act.target_date act.title
      (some act.description) act.severity performed_by
    { db := db'
      committed := st.committed ++
        [{ type := "create_issue", issue_id := row.id
           date := act.target_date, title := act.title }]
      skipped := st.skipped }

/-- The whole dedupe-and-commit loop. -/
def commitLoop (sector_id : String) (dedupe_minutes : Int)
    (performed_by : String) (planned : List Action) (db : DB) : CommitState :=
  planned.foldl (commitStep sector_id dedupe_minutes performed_by)
    { db := db, committed := [], skipped := [] }

/-- The report dict returned by `apply_rules_orchestrator`. -/
structure Report where
  sector_id : String
  window_start : Int
  window_end : Int
  rules_evaluated : Nat
  days_evaluated : Nat
  matches_found : Nat
  actions_planned : Nat
  actions_committed : Nat
  days : List DayOut
  planned : List Action
  committed : List CommitRec
  skipped : List SkipRec
  warnings : List String
  errors : List String

/-- The missing-weather warning loop of `apply_rules_orchestrator`:
flag a day when NEITHER the `weather_code` nor the `precipitation_mm`
KEY is in the dict (a present key with a `None` value is not flagged). -/
def missingWeatherWarnings (days_data : List Day) : List String :=
  days_data.filterMap (fun d =>
    if d.weather_code = Option.none ∧ d.precipitation_mm = Option.none then
      some ("missing weather for " ++ dateStr d.target_date)
    else Option.none)

/-- `apply_rules_orchestrator` in `apply_rules.py`, from the point where
`load_days_for_apply` has produced the day records (`days_data`; the
loading itself is the storage collaborator, out of the pure engine).
`start`/`ndays` are the requested window (`ctx["window_start"]` /
`ctx["window_end"]` and the `days` count used for `days_evaluated`).
Note: the function writes NO `rules_run` audit row; `db.audits` is
untouched. -/
def apply_rules_orchestrator (db : DB) (sector_id : String) (start : Int)
    (ndays : Nat) (days_data : List Day) (rules : List Rule) (mode : String)
    (dedupe_minutes : Int) (performed_by : String) : DB × Report :=
  let warnings := missingWeatherWarnings days_data
  let engine := evaluate_rules sector_id days_data rules
  let planned := engine.planned
  let st :=
    if mode = "commit" then
      commitLoop sector_id dedupe_minutes performed_by planned db
    else
      { db := db, committed := [], skipped := [] }
  ( st.db
  , { sector_id := sector_id
      window_start := start
      window_end := start + ndays - 1
      rules_evaluated := rules.length
      days_evaluated := ndays
      matches_found := (engine.days.map (fun d => d.day_matches.length)).sum
      actions_planned := planned.length
      actions_committed := st.committed.length
      days := engine.days
      planned := planned
      committed := st.committed
      skipped := st.skipped
      warnings := warnings
      errors := [] } )

/-! ### The sibling endpoint implementation (`app/api/v1/rules.py`)

`apply_rules_endpoint` evaluates per-day rules itself and then runs its
own dedupe/commit/audit suffix (lines 373-451).  We embed that suffix:
every invocation of the endpoint reaches it with some list of planned
actions.  `textwrap.shorten(title, 200)` applied at insert time is kept
as an explicit function parameter `shortenF` (an external text utility);
the `change_log` insert and the issue's weather columns do not interact
with any claim and are not tracked. -/

/-- A planned action dict of the endpoint (`type` is `"issue.create"`). -/
structure EAction where
  sector_id : String
  target_date : Int
  rule_id : String
  severity : String
  title : String
  description : String
  dedupe_key : String
deriving DecidableEq, Repr

/-- A `committed` entry of the endpoint. -/
structure ECommitRec where
  issue_id : Nat
  target_date : Int
  rule_id : String
  title : String
deriving DecidableEq, Repr

/-- A `skipped` entry of the endpoint (reason `"deduped_recent"`). -/
structure ESkipRec where
  reason : String
  target_date : Int
  title : String
  rule_id : String
deriving DecidableEq, Repr

/-- State of the endpoint's commit loop. -/
structure ECommitState where
  db : DB
  committed : List ECommitRec
  skipped : List ESkipRec
deriving DecidableEq, Repr

/-- One iteration of the endpoint's `for act in planned_actions` loop:
dedupe by (sector, date, title) against the trailing window, else insert
via `_insert_issue_with_weather` (title shortened to width 200). -/
def endpointCommitStep (shortenF : String → String) (sector_id : String)
    (dedupe_minutes : Int) (created_by : String) (st : ECommitState)
    (act : EAction) : ECommitState :=
  if dedupe_hit st.db sector_id act.target_date act.title dedupe_minutes then
    { st with skipped := st.skipped ++
        [{ reason := "deduped_recent", target_date := act.target_date
           title := act.title, rule_id := act.rule_id }] }
  else
    let (db', row) := create_issue st.db sector_id act.target_date
      (shortenF act.title) (some act.description) act.severity created_by
    { db := db'
      committed := st.committed ++
        [{ issue_id := row.id, target_date := act.target_date
           rule_id := act.rule_id, title := act.title }]
      skipped := st.skipped }

/-- The commit/audit suffix of `apply_rules_endpoint`.  `ws`/`n` are the
window start and the requested day count.  In both branches exactly one
`rules_run` row is inserted before `db.commit()`.  The `:days` parameter
of that insert binds the Python variable `days`, which the report loop
has shadowed with the last loop date `ws + n - 1` (for `n ≥ 1`; the
request model enforces `days ≥ 1`). -/
def apply_rules_endpoint_finish (shortenF : String → String) (db : DB)
    (sector_id : String) (ws : Int) (n : Nat) (rulesCount : Nat)
    (mode : String) (dedupe_minutes : Int) (requested_by : Option String)
    (planned : List EAction) : DB × List ECommitRec × List ESkipRec :=
  let we : Int := ws + n - 1
  let shadowedDays : Int := if n = 0 then 0 else ws + n - 1
  if mode = "commit" then
    let st := planned.foldl
      (endpointCommitStep shortenF sector_id dedupe_minutes
        (requested_by.getD "rules-engine"))
      { db := db, committed := [], skipped := [] }
    let audit : AuditRec :=
      { mode := "commit", window_start := ws, window_end := we
        days_analyzed := shadowedDays, rules_checked := rulesCount
        issues_created := st.committed.length, status := "ok" }
    ({ st.db with audits := st.db.audits ++ [audit] }, st.committed, st.skipped)
  else
    let audit : AuditRec :=
      { mode := "dry_run", window_start := ws, window_end := we
        days_analyzed := shadowedDays, rules_checked := rulesCount
        issues_created := 0, status := "ok" }
    ({ db with audits := db.audits ++ [audit] }, [], [])

/-! ### Specification-side description of the dedupe/commit loop

The claim about deduplication says a planned action is skipped exactly
when a matching issue was already created within the trailing window —
counting issues persisted earlier in the same run.  The following
functions express that reading without threading database state: a
decision per action, taken against the INITIAL database plus the keys of
all earlier actions of the run. -/

/-- Same (target date, title) key. -/
def sameKey (d : Int) (t : String) (p : Int × String) : Bool :=
  p.1 = d ∧ p.2 = t

/-- The claim's skip condition for one action: a matching issue in the
initial database within the window, or any earlier action of the run
with the same date and title. -/
def hitSpec (db0 : DB) (sid : String) (mins : Int)
    (prev : List (Int × String)) (a : Action) : Bool :=
  dedupe_hit db0 sid a.target_date a.title mins ||
    prev.any (sameKey a.target_date a.title)

/-- The per-action skip decisions of a run, in order. -/
def dedupeDecisions (db0 : DB) (sid : String) (mins : Int) :
    List (Int × String) → List Action → List (Action × Bool)
  | _, [] => []
  | prev, a :: rest =>
    (a, hitSpec db0 sid mins prev a) ::
      dedupeDecisions db0 sid mins (prev ++ [(a.target_date, a.title)]) rest

/-- The actions the run persists (decision `false`), in order. -/
def keptActs (db0 : DB) (sid : String) (mins : Int)
    (prev : List (Int × String)) (acts : List Action) : List Action :=
  ((dedupeDecisions db0 sid mins prev acts).filter (fun p => ! p.2)).map (·.1)

/-- The actions the run skips (decision `true`), in order. -/
def skippedActs (db0 : DB) (sid : String) (mins : Int)
    (prev : List (Int × String)) (acts : List Action) : List Action :=
  ((dedupeDecisions db0 sid mins prev acts).filter (fun p => p.2)).map (·.1)

/-- The issue row persisting action `a` produces (id `baseId`, stamped
with the transaction time `now`). -/
def mkIssueRow (sid who : String) (now : Int) (baseId : Nat) (a : Action) :
    Issue :=
  { id := baseId, sector_id := sid, issue_date := a.target_date
    title := a.title, description := some a.description
    severity := a.severity, created_by := who, created_at := now }

/-- The `committed` record of a persisted action. -/
def mkCommitRec (baseId : Nat) (a : Action) : CommitRec :=
  { type := "create_issue", issue_id := baseId
    date := a.target_date, title := a.title }

/-- The `skipped` record of a deduped action. -/
def mkSkipRec (a : Action) : SkipRec :=
  { type := "create_issue", reason := "dedupe_hit"
    title := a.title, date := a.target_date }

/-- The issue rows the persisted actions produce, ids consecutive from
`baseId`. -/
def newIssueRows (sid who : String) (now : Int) :
    Nat → List Action → List Issue
  | _, [] => []
  | baseId, a :: rest =>
    mkIssueRow sid who now baseId a :: newIssueRows sid who now (baseId + 1) rest

/-- The `committed` records of the persisted actions. -/
def commitRecsOf : Nat → List Action → List CommitRec
  | _, [] => []
  | baseId, a :: rest => mkCommitRec baseId a :: commitRecsOf (baseId + 1) rest

/-- The `skipped` records of the skipped actions. -/
def skipRecsOf (acts : List Action) : List SkipRec :=
  acts.map mkSkipRec

/-! ### Concrete inputs used by scenario theorems and witnesses -/

/-- Day `i` of the C8 scenario, precipitation 5 / 6 / 0. -/
def scenarioDay (i : Nat) (p : ℚ) : Day :=
  { target_date := i, precipitation_mm := some (some p)
    forecast_horizon_days := some 0 }

/-- The C8 scenario rule:
`\x7bscope: rolling, window_days: 3, aggregate: sum, op: ">=", value: 10\x7d`. -/
def scenarioRollingRule : Rule :=
  { id := some "rolling-sum", scope := some "rolling"
    metric := "precipitation_mm", op := ">=", value := Val.num 10
    window_days := 3, aggregate := "sum" }

/-- A day with no `forecast_horizon_days` key (and some precipitation). -/
def dayNoHorizon : Day :=
  { target_date := 0, precipitation_mm := some (some 5) }

/-- A rolling rule with `when_horizon_max = 999`. -/
def ruleHorizon999 : Rule :=
  { id := some "r", scope := some "rolling", metric := "precipitation_mm"
    op := ">", value := Val.num 0, window_days := 1, aggregate := "sum"
    when_horizon_max := some 999 }

/-- A day matching the rules below (precipitation 10). -/
def titleDay : Day :=
  { target_date := 5, precipitation_mm := some (some 10)
    forecast_horizon_days := some 0 }

/-- A matching rule with an id but neither `name` nor a title template. -/
def ruleNoName : Rule :=
  { id := some "r1", metric := "precipitation_mm", op := ">", value := Val.num 5 }

/-- A matching rule with a templated title `"\x7bsector_id\x7d"`. -/
def ruleTitleTmpl : Rule :=
  { id := some "r2", metric := "precipitation_mm", op := ">", value := Val.num 5
    suggest := some { title := some "{sector_id}" } }

/-- A day whose `weather_code` and `precipitation_mm` KEYS are present
but hold `None` (as a snapshot row with NULL columns yields). -/
def dayNullWeather : Day :=
  { target_date := 7, weather_code := some Option.none
    precipitation_mm := some Option.none }

/-- Initial database of the dedupe witness: one issue for sector `s1`,
date 10, title `"T"`, created 50 minutes before `now = 100` (inside a
60-minute window). -/
def wDb : DB :=
  { issues := [{ id := 0, sector_id := "s1", issue_date := 10, title := "T"
                 description := Option.none, severity := "high"
                 created_by := "u", created_at := 50 }]
    audits := [], now := 100 }

/-- Action matching the pre-existing issue (prior-state dedupe). -/
def wAct1 : Action :=
  { type := "create_issue", target_sector := "s1", target_date := 10
    title := "T", description := "d1", severity := "medium"
    category := "weather", dedupe_key := "k1", rule_id := some "r1" }

/-- A fresh action. -/
def wAct2 : Action :=
  { type := "create_issue", target_sector := "s1", target_date := 11
    title := "U", description := "d2", severity := "medium"
    category := "weather", dedupe_key := "k2", rule_id := some "r2" }

/-- Same date and title as `wAct2` (same-run dedupe). -/
def wAct3 : Action :=
  { type := "create_issue", target_sector := "s1", target_date := 11
    title := "U", description := "d3", severity := "low"
    category := "weather", dedupe_key := "k3", rule_id := some "r3" }


/-! ## Helper lemmas -/

theorem replaceFuel_nil (p r : List Char) (f : Nat) : replaceFuel p r f [] = [] := by
  cases f <;> rfl

theorem replaceFuel_self (c : Char) (p' r : List Char) (f : Nat) :
    replaceFuel (c :: p') r (f + 1) (c :: p') = r := by
  simp only [replaceFuel]
  rw [if_pos ⟨List.cons_ne_nil c p', List.take_length _⟩, List.drop_length,
    replaceFuel_nil, List.append_nil]

/-- Replacing a pattern inside itself yields the replacement. -/
theorem pyReplace_self (pat rep : String) (h : pat.data ≠ []) :
    pyReplace pat pat rep = rep := by
  obtain ⟨c, p', hp⟩ : ∃ c p', pat.data = c :: p' := by
    cases hd : pat.data with
    | nil => exact absurd hd h
    | cons c p' => exact ⟨c, p', rfl⟩
  show String.mk (replaceFuel pat.data rep.data pat.data.length pat.data) = rep
  rw [hp]
  show String.mk (replaceFuel (c :: p') rep.data (p'.length + 1) (c :: p')) = rep
  rw [replaceFuel_self]

/-- A one-key placeholder string has non-empty character data. -/
theorem placeholder_data_ne_nil (k : String) : ("\x7b" ++ k ++ "\x7d").data ≠ [] := by
  rw [String.data_append, String.data_append]
  simp

theorem rollingHorizon_none {d : Day}
    (h : d.forecast_horizon_days = Option.none) : rollingHorizon d = 999 := by
  simp [rollingHorizon, h]

theorem rollingHorizon_some {d : Day} {n : Int}
    (h : d.forecast_horizon_days = some n) : rollingHorizon d = n := by
  simp [rollingHorizon, h]

/-- Every action a single rule contributes is the `mkAction` of that
rule against that day. -/
theorem mem_ruleContribution_snd {sid : String} {days : List Day} {i : Nat}
    {day : Day} {rule : Rule} {a : Action}
    (h : a ∈ (ruleContribution sid days i day rule).2) :
    a = mkAction sid day rule := by
  unfold ruleContribution at h
  by_cases h1 : rule.scope.getD "per_day" = "per_day"
  · rw [if_pos h1] at h
    cases he : eval_rule_per_day rule day with
    | none => rw [he] at h; simp at h
    | some m =>
      rw [he] at h
      by_cases h2 : autoCreate rule
      · simp only [if_pos h2, List.mem_singleton] at h
        exact h
      · simp [if_neg h2] at h
  · rw [if_neg h1] at h
    by_cases h2 : rule.scope.getD "per_day" = "rolling"
    · rw [if_pos h2] at h
      by_cases h3 : autoCreate rule
      · simp only [if_pos h3, List.mem_map] at h
        obtain ⟨_, _, rfl⟩ := h
        rfl
      · simp [if_neg h3] at h
    · rw [if_neg h2] at h
      simp at h

/-- Every planned action of `evaluate_rules` is the `mkAction` of a rule
of the rule set against a day of the sequence. -/
theorem mem_planned {sid : String} {days : List Day} {rules : List Rule}
    {a : Action} (h : a ∈ (evaluate_rules sid days rules).planned) :
    ∃ day ∈ days, ∃ rule ∈ rules, a = mkAction sid day rule := by
  simp only [evaluate_rules, List.mem_flatten, List.mem_map] at h
  obtain ⟨l, ⟨pr, ⟨p, hp, rfl⟩, rfl⟩, ha⟩ := h
  simp only [evalDay, List.mem_flatten, List.mem_map] at ha
  obtain ⟨l2, ⟨pr2, ⟨rule, hr, rfl⟩, rfl⟩, ha2⟩ := ha
  exact ⟨p.2, List.snd_mem_of_mem_enum hp, rule, hr,
    mem_ruleContribution_snd ha2⟩

/-- Every planned action of `evaluate_rules` has type `create_issue`. -/
theorem mem_planned_type {sid : String} {days : List Day}
    {rules : List Rule} {a : Action}
    (h : a ∈ (evaluate_rules sid days rules).planned) :
    a.type = "create_issue" := by
  obtain ⟨day, _, rule, _, rfl⟩ := mem_planned h
  rfl

/-! ## C3 — template rendering of absent keys -/

/-- C3, counterexample.  The claim states
`render("\x7bmissing\x7d", \x7b\x7d) = ""` (a placeholder whose key is absent
from the context becomes the empty string).  In the code the fold of
`render_tmpl` only touches keys that ARE in the context, so the
placeholder is left literal and the result is not `""`. -/
theorem render_tmpl_counterexample :
    render_tmpl "{missing}" [] = "{missing}" ∧
      render_tmpl "{missing}" [] ≠ "" := by
  exact ⟨rfl, by decide⟩

/-- C3, amended.  `render_tmpl` replaces every occurrence of
`\x7bkey\x7d` for each key PRESENT in the context by the string form of
its value (empty string for a `None` value); a placeholder whose key is
absent from the context is left literal, so
`render("\x7bmissing\x7d", \x7b\x7d) = "\x7bmissing\x7d"`, not `""`. -/
theorem render_tmpl_amended :
    (∀ (k : String) (v : Option String),
      render_tmpl ("\x7b" ++ k ++ "\x7d") [(k, v)] = fmt v) ∧
    (∀ k : String,
      render_tmpl ("\x7b" ++ k ++ "\x7d") [] = "\x7b" ++ k ++ "\x7d") ∧
    render_tmpl "{a} and {b}" [("a", some "1"), ("b", some "2")] = "1 and 2" := by
  refine ⟨fun k v => ?_, fun k => rfl, by decide⟩
  show pyReplace ("\x7b" ++ k ++ "\x7d") ("\x7b" ++ k ++ "\x7d") (fmt v) = fmt v
  exact pyReplace_self _ _ (placeholder_data_ne_nil k)

/-! ## C6 — comparator totality and absent-safety -/

/-- C6.  `cmp_value` is a total boolean function (it is defined as a
Lean function into `Bool`; every Python `try/except` appears as an
`Option` match, so no input raises).  Moreover: an absent `actual` gives
`false` for every operator and threshold; an unknown operator gives
`false`; a non-list operand of `in`, a malformed `between` pair and a
non-coercible operand under a numeric operator all give `false`. -/
theorem cmp_value_totality :
    (∀ (op : String) (v : Val), cmp_value op Val.none v = false) ∧
    (∀ (op : String) (a v : Val),
      op ∉ ([">", ">=", "<", "<=", "==", "in", "between"] : List String) →
        cmp_value op a v = false) ∧
    (∀ (a : Val) (q : ℚ), cmp_value "in" a (Val.num q) = false) ∧
    (∀ (a : Val) (q : ℚ), cmp_value "between" a (Val.num q) = false) ∧
    (∀ (a lo : Val), cmp_value "between" a (Val.list [lo]) = false) ∧
    (∀ (op : String) (a v : Val), toFloat a = Option.none →
      op = ">" ∨ op = ">=" ∨ op = "<" ∨ op = "<=" ∨ op = "==" →
        cmp_value op a v = false) := by
  refine ⟨fun op v => ?_, fun op a v h => ?_, fun a q => ?_, fun a q => ?_,
    fun a lo => ?_, fun op a v ht hop => ?_⟩
  · simp [cmp_value, Val.isNone]
  · simp only [List.mem_cons, List.not_mem_nil, or_false, not_or] at h
    obtain ⟨h1, h2, h3, h4, h5, h6, h7⟩ := h
    cases ha : a.isNone
    · simp [cmp_value, ha, h1, h2, h3, h4, h5, h6, h7]
    · simp [cmp_value, ha]
  · cases ha : a.isNone
    · simp +decide [cmp_value, ha]
    · simp [cmp_value, ha]
  · cases ha : a.isNone
    · simp +decide [cmp_value, ha]
    · simp [cmp_value, ha]
  · cases ha : a.isNone
    · simp +decide [cmp_value, ha]
    · simp [cmp_value, ha]
  · cases ha : a.isNone
    · rcases hop with h | h | h | h | h <;> subst h <;>
        simp +decide [cmp_value, ha, ht]
    · simp [cmp_value, ha]

/-- Witness for `cmp_value_totality` at concrete inputs. -/
theorem cmp_value_totality_witness :
    cmp_value "almost" (Val.num 3) (Val.num 1) = false ∧
    cmp_value ">" (Val.list []) (Val.num 1) = false := by
  exact ⟨cmp_value_totality.2.1 "almost" (Val.num 3) (Val.num 1) (by decide),
    cmp_value_totality.2.2.2.2.2 ">" (Val.list []) (Val.num 1) rfl (Or.inl rfl)⟩

/-! ## C7 — aggregator drops absent values; empty gives absent -/

/-- C7.  `agg_block` first drops absent entries; if none remain the
result is absent for every aggregate kind (in particular for the empty
list and for a list of only absent values); otherwise `sum`, `avg`,
`count` equal sum, mean and size of the non-absent entries, and `max` /
`min` return a member of the non-absent entries bounding them from
above / below. -/
theorem agg_block_spec :
    (∀ (vals : List (Option ℚ)) (kind : String),
      vals.filterMap id = [] → agg_block vals kind = Option.none) ∧
    (∀ vals : List (Option ℚ), vals.filterMap id ≠ [] →
      agg_block vals "sum" = some (vals.filterMap id).sum ∧
      agg_block vals "avg" =
        some ((vals.filterMap id).sum / ((vals.filterMap id).length : ℚ)) ∧
      agg_block vals "count" = some (((vals.filterMap id).length : ℚ)) ∧
      (∃ m, agg_block vals "max" = some m ∧ m ∈ vals.filterMap id ∧
        ∀ x ∈ vals.filterMap id, x ≤ m) ∧
      (∃ m, agg_block vals "min" = some m ∧ m ∈ vals.filterMap id ∧
        ∀ x ∈ vals.filterMap id, m ≤ x)) := by
  constructor
  · intro vals kind h
    simp [agg_block, h]
  · intro vals h
    have hlen : ¬ (vals.filterMap id).length = 0 := by
      simpa [List.length_eq_zero] using h
    refine ⟨by simp +decide [agg_block, hlen],
      by simp +decide [agg_block, hlen],
      by simp +decide [agg_block, hlen], ?_, ?_⟩
    · cases hmax : (vals.filterMap id).max? with
      | none => exact absurd (List.max?_eq_none_iff.mp hmax) h
      | some m =>
        have anti : Std.Antisymm (fun x1 x2 : ℚ => x1 ≤ x2) :=
          ⟨fun h1 h2 => le_antisymm h1 h2⟩
        have hm := (List.max?_eq_some_iff (fun a => le_refl a)
          (fun a b => max_choice a b) (fun a b c => max_le_iff)).mp hmax
        exact ⟨m, by simp +decide [agg_block, hlen, hmax], hm.1, hm.2⟩
    · cases hmin : (vals.filterMap id).min? with
      | none => exact absurd (List.min?_eq_none_iff.mp hmin) h
      | some m =>
        have anti : Std.Antisymm (fun x1 x2 : ℚ => x1 ≤ x2) :=
          ⟨fun h1 h2 => le_antisymm h1 h2⟩
        have hm := (List.min?_eq_some_iff (fun a => le_refl a)
          (fun a b => min_choice a b) (fun a b c => le_min_iff)).mp hmin
        exact ⟨m, by simp +decide [agg_block, hlen, hmin], hm.1, hm.2⟩

/-- Witness for `agg_block_spec` at concrete inputs: the empty list and
a list with an absent entry. -/
theorem agg_block_spec_witness :
    agg_block ([Option.none, Option.none] : List (Option ℚ)) "sum" =
      Option.none ∧
    agg_block [some (1 : ℚ), Option.none, some 2] "sum" =
      some ((List.filterMap id [some (1 : ℚ), Option.none, some 2]).sum) := by
  exact ⟨agg_block_spec.1 [Option.none, Option.none] "sum" rfl,
    (agg_block_spec.2 [some 1, Option.none, some 2] (by decide)).1⟩

/-! ## C8 — rolling-sum scenario -/

/-- C8.  Over the 3-day sequence with `precipitation_mm = [5, 6, 0]`, the
rolling evaluator produces exactly one match, attributed to day index 2
(the last day of the window), with evidence `actual = 11` and aggregate
descriptor `"sum(3)"`. -/
theorem rolling_sum_scenario :
    (eval_rule_rolling scenarioRollingRule
        [scenarioDay 0 5, scenarioDay 1 6, scenarioDay 2 0]).map
        (fun p => (p.1, p.2.rule_id, p.2.severity,
          p.2.evidence.actual, p.2.evidence.aggregate)) =
      [(2, some "rolling-sum", "medium", some (11 : ℚ), some "sum(3)")] := by
  simp +decide [eval_rule_rolling, eval_rule_rolling_from, window_horizon_ok,
    rollingHorizon, agg_block, cmp_value, get_metric, dget, toFloat,
    Val.isNone, mkRollMatch, scenarioRollingRule, scenarioDay]
  norm_num
  decide

/-! ## C10 — missing forecast horizon -/

/-- C10, counterexample.  The claim states that in rolling evaluation a
window containing a day with no `forecast_horizon_days` is ALWAYS
skipped.  With `when_horizon_max = 999` the defaulted horizon
`d.get("forecast_horizon_days", 999)` is NOT greater than the max, so
the window is evaluated and here produces a match. -/
theorem rolling_horizon_counterexample :
    (eval_rule_rolling ruleHorizon999 [dayNoHorizon]).length = 1 := by
  simp +decide [eval_rule_rolling, eval_rule_rolling_from, window_horizon_ok,
    rollingHorizon, agg_block, cmp_value, get_metric, dget, toFloat,
    Val.isNone, mkRollMatch, ruleHorizon999, dayNoHorizon]

/-- C10, amended.  (i) The single-day horizon filter passes whenever the
day's `forecast_horizon_days` is missing or not an integer: the rule is
then evaluated exactly as if it had no `when_horizon_max`.  (ii) In
rolling evaluation a missing horizon is treated as the sentinel `999`,
so a window containing such a day is skipped whenever
`when_horizon_max < 999`; (iii) when `when_horizon_max ≥ 999` the
missing value never causes a skip: the window is skipped if and only if
some day of the block carries an integer horizon above the max. -/
theorem horizon_missing_amended :
    (∀ (rule : Rule) (day : Day), day.forecast_horizon_days = Option.none →
      eval_rule_per_day rule day =
        eval_rule_per_day { rule with when_horizon_max := Option.none } day) ∧
    (∀ (m : Int) (block : List Day) (d : Day), d ∈ block →
      d.forecast_horizon_days = Option.none → m < 999 →
      window_horizon_ok (some m) block = false) ∧
    (∀ (m : Int) (block : List Day), 999 ≤ m →
      (window_horizon_ok (some m) block = false ↔
        ∃ d ∈ block, ∃ h : Int, d.forecast_horizon_days = some h ∧ m < h)) := by
  refine ⟨fun rule day hfh => ?_, fun m block d hd hfh hm => ?_, fun m block hm => ?_⟩
  · simp only [eval_rule_per_day, horizon_ok_per_day, hfh]
    cases rule.when_horizon_max <;> rfl
  · have hany : block.any (fun d => rollingHorizon d > m) = true := by
      rw [List.any_eq_true]
      refine ⟨d, hd, ?_⟩
      rw [decide_eq_true_eq, rollingHorizon_none hfh]
      omega
    simp [window_horizon_ok, hany]
  · have hb : window_horizon_ok (some m) block = false ↔
        block.any (fun d => rollingHorizon d > m) = true := by
      simp [window_horizon_ok]
    rw [hb, List.any_eq_true]
    constructor
    · rintro ⟨d, hd, hgt⟩
      rw [decide_eq_true_eq] at hgt
      cases hfd : d.forecast_horizon_days with
      | none => rw [rollingHorizon_none hfd] at hgt; omega
      | some h =>
        exact ⟨d, hd, h, hfd, by rw [rollingHorizon_some hfd] at hgt; omega⟩
    · rintro ⟨d, hd, h, hfd, hlt⟩
      refine ⟨d, hd, ?_⟩
      rw [decide_eq_true_eq, rollingHorizon_some hfd]
      omega

/-- Witness for `horizon_missing_amended` at concrete inputs. -/
theorem horizon_missing_amended_witness :
    eval_rule_per_day ruleHorizon999 dayNoHorizon =
      eval_rule_per_day { ruleHorizon999 with when_horizon_max := Option.none }
        dayNoHorizon ∧
    window_horizon_ok (some 998) [dayNoHorizon] = false ∧
    (window_horizon_ok (some 999) [dayNoHorizon] = false ↔
      ∃ d ∈ [dayNoHorizon], ∃ h : Int,
        d.forecast_horizon_days = some h ∧ 999 < h) := by
  exact ⟨horizon_missing_amended.1 ruleHorizon999 dayNoHorizon rfl,
    horizon_missing_amended.2.1 998 [dayNoHorizon] dayNoHorizon (by simp)
      rfl (by omega),
    horizon_missing_amended.2.2 999 [dayNoHorizon] (by omega)⟩

/-! ## C2 — the planned action's title -/

/-- C2, counterexample.  On sector `"s1"`, the claim predicts the titles
`["r1", "s1"]` — the id of `ruleNoName` (no title template and no name),
and the `"\x7bsector_id\x7d"` template of `ruleTitleTmpl` rendered against
the context.  The code takes the template string verbatim (no
rendering), and its fallback when `name` is absent is the literal
`"Issue gerada por regra"`, never `rule.id`. -/
theorem evaluate_rules_title_counterexample :
    (evaluate_rules "s1" [titleDay] [ruleNoName, ruleTitleTmpl]).planned.map
        (fun a => a.title) = ["Issue gerada por regra", "{sector_id}"] ∧
      ("Issue gerada por regra" : String) ≠ "r1" ∧
      ("{sector_id}" : String) ≠ "s1" := by
  refine ⟨by decide, by decide, by decide⟩

/-- C2, amended.  Every planned `create_issue` action of
`evaluate_rules` carries, for some rule of the rule set with the
action's `rule_id`, the title
`rule.suggest.title` AS A VERBATIM STRING (not rendered), falling back
to `rule.name` and then to the literal `"Issue gerada por regra"`
(not to `rule.id`). -/
theorem evaluate_rules_title_amended (sid : String) (days : List Day)
    (rules : List Rule) (a : Action)
    (h : a ∈ (evaluate_rules sid days rules).planned) :
    ∃ rule ∈ rules, a.rule_id = rule.id ∧
      a.title =
        ((rule.suggest.getD {}).title).getD
          (rule.name.getD "Issue gerada por regra") := by
  obtain ⟨day, _, rule, hr, rfl⟩ := mem_planned h
  exact ⟨rule, hr, rfl, rfl⟩

/-- Witness for `evaluate_rules_title_amended` at a concrete input. -/
theorem evaluate_rules_title_amended_witness :
    ∃ rule ∈ [ruleNoName], (mkAction "s1" titleDay ruleNoName).rule_id = rule.id ∧
      (mkAction "s1" titleDay ruleNoName).title =
        ((rule.suggest.getD {}).title).getD
          (rule.name.getD "Issue gerada por regra") :=
  evaluate_rules_title_amended "s1" [titleDay] [ruleNoName]
    (mkAction "s1" titleDay ruleNoName) (by decide)

/-! ## C9 — missing-weather warnings -/

/-- C9, counterexample.  The claim predicts the warning
`"missing weather for 7"` for a resolved day that lacks both a weather
code and a precipitation value.  The code tests KEY MEMBERSHIP
(`"weather_code" not in d`), so this day — whose keys are present with
`None` values — is not flagged, and the report's warning list is empty. -/
theorem warnings_counterexample :
    (apply_rules_orchestrator { issues := [], audits := [], now := 0 }
        "s1" 7 1 [dayNullWeather] [] "dry_run" 60 "system").2.warnings = [] := by
  decide

/-- C9, amended.  The orchestrator flags exactly the resolved day
records carrying NEITHER a `weather_code` entry NOR a
`precipitation_mm` entry (keys absent, as in the placeholder days the
mixed-mode loader emits), with the string `"missing weather for "`
followed by the day's date; days whose entries are present but null are
not flagged.  The warning list is the same in commit and dry-run mode
and is part of the report in both. -/
theorem warnings_amended (db : DB) (sid : String) (start : Int)
    (ndays : Nat) (days_data : List Day) (rules : List Rule) (mode : String)
    (mins : Int) (who : String) :
    (apply_rules_orchestrator db sid start ndays days_data rules mode mins
        who).2.warnings =
      days_data.filterMap (fun d =>
        if d.weather_code = Option.none ∧ d.precipitation_mm = Option.none then
          some ("missing weather for " ++ dateStr d.target_date)
        else Option.none) ∧
    (apply_rules_orchestrator db sid start ndays days_data rules "commit"
        mins who).2.warnings =
      (apply_rules_orchestrator db sid start ndays days_data rules "dry_run"
        mins who).2.warnings := by
  exact ⟨rfl, rfl⟩

/-! ## C4 — the action-bucket invariant -/

/-- Each loop iteration over a `create_issue` action grows `committed`
or `skipped` by exactly one entry. -/
theorem commitLoop_bucket_lengths (sid : String) (mins : Int) (who : String) :
    ∀ (acts : List Action) (st : CommitState),
      (∀ a ∈ acts, a.type = "create_issue") →
      (acts.foldl (commitStep sid mins who) st).committed.length +
          (acts.foldl (commitStep sid mins who) st).skipped.length =
        st.committed.length + st.skipped.length + acts.length := by
  intro acts
  induction acts with
  | nil => intro st _; simp
  | cons a rest ih =>
    intro st hall
    have hty : a.type = "create_issue" := hall a (List.mem_cons_self a rest)
    have hrest : ∀ b ∈ rest, b.type = "create_issue" := fun b hb =>
      hall b (List.mem_cons_of_mem a hb)
    simp only [List.foldl_cons]
    rw [ih (commitStep sid mins who st a) hrest]
    unfold commitStep
    rw [if_neg (by simp [hty])]
    by_cases hd : dedupe_hit st.db sid a.target_date a.title mins
    · simp [hd]
      omega
    · simp [hd]
      omega

/-- C4.  In commit mode every planned action lands in exactly one of
`committed` / `skipped`, so
`planned.length = committed.length + skipped.length`; in any other mode
(dry-run) both buckets are empty and `planned` is the engine's full
proposal set. -/
theorem action_buckets_invariant (db : DB) (sid : String) (start : Int)
    (ndays : Nat) (days_data : List Day) (rules : List Rule) (mode : String)
    (mins : Int) (who : String) :
    (mode = "commit" →
      (apply_rules_orchestrator db sid start ndays days_data rules mode mins
          who).2.planned.length =
        (apply_rules_orchestrator db sid start ndays days_data rules mode mins
            who).2.committed.length +
          (apply_rules_orchestrator db sid start ndays days_data rules mode
              mins who).2.skipped.length) ∧
    (mode ≠ "commit" →
      (apply_rules_orchestrator db sid start ndays days_data rules mode mins
          who).2.committed = [] ∧
      (apply_rules_orchestrator db sid start ndays days_data rules mode mins
          who).2.skipped = [] ∧
      (apply_rules_orchestrator db sid start ndays days_data rules mode mins
          who).2.planned = (evaluate_rules sid days_data rules).planned) := by
  constructor
  · intro hm
    subst hm
    have hall : ∀ a ∈ (evaluate_rules sid days_data rules).planned,
        a.type = "create_issue" := fun a ha => mem_planned_type ha
    have hlen := commitLoop_bucket_lengths sid mins who
      (evaluate_rules sid days_data rules).planned
      { db := db, committed := [], skipped := [] } hall
    simp only [apply_rules_orchestrator, commitLoop, eq_self_iff_true,
      ite_true]
    simp only [List.length_nil, Nat.zero_add] at hlen
    omega
  · intro hm
    simp [apply_rules_orchestrator, if_neg hm]

/-- Witness for `action_buckets_invariant`, in both modes. -/
theorem action_buckets_invariant_witness :
    ((apply_rules_orchestrator { issues := [], audits := [], now := 0 }
        "s1" 5 1 [titleDay] [ruleNoName] "commit" 60 "system").2.planned.length =
      (apply_rules_orchestrator { issues := [], audits := [], now := 0 }
          "s1" 5 1 [titleDay] [ruleNoName] "commit" 60
          "system").2.committed.length +
        (apply_rules_orchestrator { issues := [], audits := [], now := 0 }
            "s1" 5 1 [titleDay] [ruleNoName] "commit" 60
            "system").2.skipped.length) ∧
    (apply_rules_orchestrator { issues := [], audits := [], now := 0 }
        "s1" 5 1 [titleDay] [ruleNoName] "dry_run" 60 "system").2.committed =
      [] := by
  exact ⟨(action_buckets_invariant { issues := [], audits := [], now := 0 }
      "s1" 5 1 [titleDay] [ruleNoName] "commit" 60 "system").1 rfl,
    ((action_buckets_invariant { issues := [], audits := [], now := 0 }
      "s1" 5 1 [titleDay] [ruleNoName] "dry_run" 60 "system").2
        (by decide)).1⟩

/-! ## C5 — deduplication, including same-run visibility -/

theorem keptActs_cons (db0 : DB) (sid : String) (mins : Int)
    (prev : List (Int × String)) (a : Action) (rest : List Action) :
    keptActs db0 sid mins prev (a :: rest) =
      if hitSpec db0 sid mins prev a then
        keptActs db0 sid mins (prev ++ [(a.target_date, a.title)]) rest
      else
        a :: keptActs db0 sid mins (prev ++ [(a.target_date, a.title)]) rest := by
  by_cases h : hitSpec db0 sid mins prev a <;>
    simp [keptActs, dedupeDecisions, h]

theorem skippedActs_cons (db0 : DB) (sid : String) (mins : Int)
    (prev : List (Int × String)) (a : Action) (rest : List Action) :
    skippedActs db0 sid mins prev (a :: rest) =
      if hitSpec db0 sid mins prev a then
        a :: skippedActs db0 sid mins (prev ++ [(a.target_date, a.title)]) rest
      else
        skippedActs db0 sid mins (prev ++ [(a.target_date, a.title)]) rest := by
  by_cases h : hitSpec db0 sid mins prev a <;>
    simp [skippedActs, dedupeDecisions, h]

/-- The dedupe/commit loop, characterised without database threading:
starting from a state whose dedupe test agrees with "initial database or
an earlier key of the run", the loop persists exactly the actions with
decision `false` and skips exactly those with decision `true`. -/
theorem dedupe_hit_append (db : DB) (more : List Issue) (sid : String)
    (d : Int) (t : String) (mins : Int) :
    dedupe_hit { db with issues := db.issues ++ more } sid d t mins =
      (dedupe_hit db sid d t mins ||
        more.any (fun i => decide (i.sector_id = sid ∧ i.issue_date = d ∧
          i.title = t ∧ db.now - mins ≤ i.created_at))) := by
  unfold dedupe_hit
  simp [List.any_append]

/-- The dedupe/commit loop, characterised without database threading:
starting from a state whose dedupe test agrees with "initial database or
an earlier key of the run", the loop persists exactly the actions with
decision `false` and skips exactly those with decision `true`. -/
theorem commitLoop_go_spec (db0 : DB) (sid who : String) (mins : Int)
    (hm : 0 ≤ mins) :
    ∀ (acts : List Action) (prev : List (Int × String)) (st : CommitState),
      (∀ a ∈ acts, a.type = "create_issue") →
      (∀ d t, dedupe_hit st.db sid d t mins =
        (dedupe_hit db0 sid d t mins || prev.any (sameKey d t))) →
      acts.foldl (commitStep sid mins who) st =
        { db := { st.db with issues := (st.db.issues ++
              newIssueRows sid who st.db.now st.db.issues.length
                (keptActs db0 sid mins prev acts)) }
          committed := (st.committed ++
            commitRecsOf st.db.issues.length (keptActs db0 sid mins prev acts))
          skipped := (st.skipped ++
            skipRecsOf (skippedActs db0 sid mins prev acts)) } := by
  intro acts
  induction acts with
  | nil =>
    intro prev st _ _
    obtain ⟨⟨issues, audits, now⟩, comm, skip⟩ := st
    simp [keptActs, skippedActs, dedupeDecisions, newIssueRows, commitRecsOf,
      skipRecsOf]
  | cons a rest ih =>
    intro prev st hall hhit
    have hty : a.type = "create_issue" := hall a (List.mem_cons_self a rest)
    have hrest : ∀ b ∈ rest, b.type = "create_issue" := fun b hb =>
      hall b (List.mem_cons_of_mem a hb)
    have hspec : hitSpec db0 sid mins prev a =
        dedupe_hit st.db sid a.target_date a.title mins := by
      unfold hitSpec
      exact (hhit a.target_date a.title).symm
    simp only [List.foldl_cons]
    by_cases hd : dedupe_hit st.db sid a.target_date a.title mins
    · -- dedupe hit: the action lands in `skipped`, the database is kept
      have hstep : commitStep sid mins who st a =
          { st with skipped := st.skipped ++ [mkSkipRec a] } := by
        unfold commitStep mkSkipRec
        rw [if_neg (by simp [hty]), if_pos hd]
      have hhit' : ∀ d t,
          dedupe_hit st.db sid d t mins =
            (dedupe_hit db0 sid d t mins ||
              (prev ++ [(a.target_date, a.title)]).any (sameKey d t)) := by
        intro d t
        rw [List.any_append]
        by_cases hk : a.target_date = d ∧ a.title = t
        · obtain ⟨h1, h2⟩ := hk
          subst h1; subst h2
          have hone : [(a.target_date, a.title)].any
              (sameKey a.target_date a.title) = true := by
            simp [sameKey]
          rw [hone, hd]
          simp
        · have hone : [(a.target_date, a.title)].any (sameKey d t) = false := by
            simp only [List.any_cons, List.any_nil, Bool.or_false, sameKey]
            simpa using hk
          rw [hone, Bool.or_false, hhit]
      rw [hstep, ih (prev ++ [(a.target_date, a.title)])
        { st with skipped := st.skipped ++ [mkSkipRec a] } hrest hhit']
      rw [keptActs_cons, skippedActs_cons, if_pos (hspec.trans hd),
        if_pos (hspec.trans hd)]
      simp [skipRecsOf, List.append_assoc]
    · -- no hit: the action is persisted and lands in `committed`
      have hstep : commitStep sid mins who st a =
          { db := { st.db with issues := (st.db.issues ++
                [mkIssueRow sid who st.db.now st.db.issues.length a]) }
            committed := st.committed ++ [mkCommitRec st.db.issues.length a]
            skipped := st.skipped } := by
        unfold commitStep mkIssueRow mkCommitRec
        rw [if_neg (by simp [hty]), if_neg hd]
        rfl
      have hhit' : ∀ d t,
          dedupe_hit { st.db with issues := (st.db.issues ++
              [mkIssueRow sid who st.db.now st.db.issues.length a]) }
              sid d t mins =
            (dedupe_hit db0 sid d t mins ||
              (prev ++ [(a.target_date, a.title)]).any (sameKey d t)) := by
        intro d t
        rw [dedupe_hit_append, List.any_append]
        have hrow : [mkIssueRow sid who st.db.now st.db.issues.length a].any
              (fun i => decide (i.sector_id = sid ∧ i.issue_date = d ∧
                i.title = t ∧ st.db.now - mins ≤ i.created_at)) =
            [(a.target_date, a.title)].any (sameKey d t) := by
          simp only [List.any_cons, List.any_nil, Bool.or_false, sameKey,
            mkIssueRow]
          rw [decide_eq_decide]
          constructor
          · rintro ⟨-, h2, h3, -⟩; exact ⟨h2, h3⟩
          · rintro ⟨h2, h3⟩; exact ⟨trivial, h2, h3, by omega⟩
        rw [hrow, hhit d t, Bool.or_assoc]
      rw [hstep, ih (prev ++ [(a.target_date, a.title)])
        { db := { st.db with issues := (st.db.issues ++
              [mkIssueRow sid who st.db.now st.db.issues.length a]) }
          committed := st.committed ++ [mkCommitRec st.db.issues.length a]
          skipped := st.skipped } hrest hhit']
      rw [keptActs_cons, skippedActs_cons, if_neg (by rw [hspec]; exact hd),
        if_neg (by rw [hspec]; exact hd)]
      simp only [newIssueRows, commitRecsOf]
      have hlen : (st.db.issues ++
          [mkIssueRow sid who st.db.now st.db.issues.length a]).length =
          st.db.issues.length + 1 := by
        simp
      rw [hlen]
      simp [List.append_assoc]

/-- C5.  In commit mode, a planned `create_issue` action is moved to
`skipped` with reason `"dedupe_hit"` (and not persisted) exactly when an
issue with the same subject, same target date and same title exists
within the trailing dedupe window — the initial database contents or an
issue persisted earlier in the same run (same-run issues carry
`created_at = now`, which lies inside every window of non-negative
length); every other action is persisted with consecutive ids and
recorded in `committed`, in order. -/
theorem dedupe_commit_characterization (db : DB) (sid who : String)
    (mins : Int) (planned : List Action) (hm : 0 ≤ mins)
    (hall : ∀ a ∈ planned, a.type = "create_issue") :
    commitLoop sid mins who planned db =
      { db := { db with issues := (db.issues ++
            newIssueRows sid who db.now db.issues.length
              (keptActs db sid mins [] planned)) }
        committed := (commitRecsOf db.issues.length
          (keptActs db sid mins [] planned))
        skipped := skipRecsOf (skippedActs db sid mins [] planned) } := by
  have h := commitLoop_go_spec db sid who mins hm planned []
    { db := db, committed := [], skipped := [] } hall
    (fun d t => by simp)
  simpa [commitLoop] using h

/-- Witness for `dedupe_commit_characterization` at a concrete run:
`wAct1` is skipped against the pre-existing issue, `wAct2` is committed,
and `wAct3` is skipped against the issue `wAct2` persisted earlier in
the same run. -/
theorem dedupe_commit_characterization_witness :
    commitLoop "s1" 60 "system" [wAct1, wAct2, wAct3] wDb =
      { db := { wDb with issues := (wDb.issues ++
            newIssueRows "s1" "system" wDb.now wDb.issues.length
              (keptActs wDb "s1" 60 [] [wAct1, wAct2, wAct3])) }
        committed := (commitRecsOf wDb.issues.length
          (keptActs wDb "s1" 60 [] [wAct1, wAct2, wAct3]))
        skipped := skipRecsOf (skippedActs wDb "s1" 60 [] [wAct1, wAct2, wAct3]) } ∧
    (commitLoop "s1" 60 "system" [wAct1, wAct2, wAct3] wDb).skipped =
      [mkSkipRec wAct1, mkSkipRec wAct3] := by
  exact ⟨dedupe_commit_characterization wDb "s1" "system" 60
    [wAct1, wAct2, wAct3] (by omega) (by decide), by decide⟩

/-! ## C1 — the audit run record -/

theorem commitStep_db_audits (sid : String) (mins : Int) (who : String)
    (st : CommitState) (a : Action) :
    (commitStep sid mins who st a).db.audits = st.db.audits := by
  unfold commitStep create_issue
  by_cases h1 : a.type ≠ "create_issue"
  · rw [if_pos h1]
  · rw [if_neg h1]
    by_cases h2 : dedupe_hit st.db sid a.target_date a.title mins
    · rw [if_pos h2]
    · rw [if_neg h2]

theorem commitLoop_fold_audits (sid : String) (mins : Int) (who : String) :
    ∀ (acts : List Action) (st : CommitState),
      (acts.foldl (commitStep sid mins who) st).db.audits = st.db.audits := by
  intro acts
  induction acts with
  | nil => intro st; rfl
  | cons a rest ih =>
    intro st
    simp only [List.foldl_cons]
    rw [ih, commitStep_db_audits]

theorem endpointCommitStep_db_audits (shortenF : String → String)
    (sid : String) (mins : Int) (who : String) (st : ECommitState)
    (a : EAction) :
    (endpointCommitStep shortenF sid mins who st a).db.audits =
      st.db.audits := by
  unfold endpointCommitStep create_issue
  by_cases h2 : dedupe_hit st.db sid a.target_date a.title mins
  · rw [if_pos h2]
  · rw [if_neg h2]

theorem endpointLoop_fold_audits (shortenF : String → String) (sid : String)
    (mins : Int) (who : String) :
    ∀ (acts : List EAction) (st : ECommitState),
      (acts.foldl (endpointCommitStep shortenF sid mins who) st).db.audits =
        st.db.audits := by
  intro acts
  induction acts with
  | nil => intro st; rfl
  | cons a rest ih =>
    intro st
    simp only [List.foldl_cons]
    rw [ih, endpointCommitStep_db_audits]

/-- C1, counterexample.  The claim states that EVERY invocation of the
apply-rules operation writes exactly one audit run record, citing both
implementations.  `apply_rules_orchestrator` (the service-level
implementation) contains no `rules_run` insert at all: after a full run
in either mode the audit table is unchanged (here: still empty). -/
theorem orchestrator_audit_counterexample :
    (apply_rules_orchestrator { issues := [], audits := [], now := 0 }
        "s1" 0 1 [] [] "commit" 60 "system").1.audits = [] ∧
    (apply_rules_orchestrator { issues := [], audits := [], now := 0 }
        "s1" 0 1 [] [] "dry_run" 60 "system").1.audits = [] := by
  exact ⟨by decide, by decide⟩

/-- C1, amended.  The ENDPOINT implementation appends exactly one audit
record per invocation, in both modes, recording the window, the rule
count and the number of issues created (with zero issues created in
dry-run: its `committed` bucket is empty); the service-level
orchestrator `apply_rules_orchestrator` writes no audit record. -/
theorem audit_record_amended :
    (∀ (shortenF : String → String) (db : DB) (sid : String) (ws : Int)
        (n : Nat) (rc : Nat) (mode : String) (mins : Int)
        (who : Option String) (planned : List EAction),
      (apply_rules_endpoint_finish shortenF db sid ws n rc mode mins who
          planned).1.audits =
        db.audits ++
          [{ mode := if mode = "commit" then "commit" else "dry_run"
             window_start := ws
             window_end := ws + n - 1
             days_analyzed := if n = 0 then 0 else ws + n - 1
             rules_checked := rc
             issues_created :=
               (apply_rules_endpoint_finish shortenF db sid ws n rc mode mins
                   who planned).2.1.length
             status := "ok" }]) ∧
    (∀ (shortenF : String → String) (db : DB) (sid : String) (ws : Int)
        (n : Nat) (rc : Nat) (mins : Int) (who : Option String)
        (planned : List EAction),
      (apply_rules_endpoint_finish shortenF db sid ws n rc "dry_run" mins who
          planned).2.1 = []) ∧
    (∀ (db : DB) (sid : String) (start : Int) (ndays : Nat)
        (days_data : List Day) (rules : List Rule) (mode : String)
        (mins : Int) (who : String),
      (apply_rules_orchestrator db sid start ndays days_data rules mode mins
          who).1.audits = db.audits) := by
  refine ⟨fun shortenF db sid ws n rc mode mins who planned => ?_,
    fun shortenF db sid ws n rc mins who planned => by
      simp [apply_rules_endpoint_finish],
    fun db sid start ndays days_data rules mode mins who => ?_⟩
  · by_cases hm : mode = "commit"
    · simp only [apply_rules_endpoint_finish, hm, ite_true, eq_self_iff_true]
      rw [endpointLoop_fold_audits]
    · simp [apply_rules_endpoint_finish, hm]
  · by_cases hm : mode = "commit"
    · simp only [apply_rules_orchestrator, hm, ite_true, eq_self_iff_true,
        commitLoop]
      rw [commitLoop_fold_audits]
    · simp [apply_rules_orchestrator, hm]

end BuildFlow
